import Mathlib

/-!
Verification of the Commodore datasette decoder (`commodore_tape_parse.py`,
`wav_file_reader.py`): a shallow embedding of the signal-to-bytes pipeline
(pulse extraction, adaptive pulse categorisation, bit/byte framing, block
assembly, multi-pass reconciliation, TAP emission), followed by theorems about
the embedded functions.

Times and pulse lengths are modelled as rationals (the source uses IEEE
doubles; per the design notes the decisive comparisons are not sensitive to
sub-ULP drift).  Fallible list indexing in the source (plain `list[i]`, which
raises `IndexError` in Python when out of range) is modelled with `Option`.
-/

set_option maxRecDepth 10000

namespace CTape

/-- Python `int(x)` on a float: truncation toward zero. -/
def int_trunc (q : ℚ) : ℤ :=
  if 0 ≤ q then ⌊q⌋ else -⌊-q⌋

/-- Clock period assumed when measuring wave-cycle lengths: 1/8th of the CPU
speed (source: `self.tape_clock_period = 1. / 123156`). -/
def tape_clock_period : ℚ := 1 / 123156

/-- Source: `self.histogram_bins_per_cycle = 2.` -/
def histogram_bins_per_cycle : ℚ := 2

/-- A raw pulse as produced by `WavFileReader.fetch_pulse_list`: the interval
between two consecutive downward zero-crossings. -/
structure RawPulse where
  time : ℚ
  length_sec : ℚ
  deriving Repr, DecidableEq

/-- Embedding of `WavFileReader.fetch_pulse_list`: for crossing times
t0, t1, ..., emit pulses (time = t(i-1), length_sec = t(i) - t(i-1)). -/
def fetch_pulse_list (input_events : List ℚ) : List RawPulse :=
  (input_events.zip input_events.tail).map (fun ab => ⟨ab.1, ab.2 - ab.1⟩)

/-! ### TAP writer (`write_tap_file`, source lines 888-926) -/

/-- Encoding of one pulse as a TAP body byte (source lines 917-922):
`length_int = length_sec / time_unit; if not 0 < length_int < 255:
length_int = 0; output.append(int(length_int))`. -/
def encode_pulse (time_unit : ℚ) (p : RawPulse) : ℕ :=
  let length_int : ℚ := p.length_sec / time_unit
  if 0 < length_int ∧ length_int < 255 then (int_trunc length_int).toNat else 0

/-- The bytes `write_tap_file` emits before the pulse bytes: the ASCII ID
`C64-TAPE-RAW`, one version byte 0, the four bytes of `[0, 0, 0, 0]` that the
source appends as "Reserved", and the pulse count as a little-endian 32-bit
integer. -/
def tap_header (l : ℕ) : List ℕ :=
  ("C64-TAPE-RAW".toList.map Char.toNat) ++ [0] ++ [0, 0, 0, 0] ++
    [l % 256, (l / 2 ^ 8) % 256, (l / 2 ^ 16) % 256, (l / 2 ^ 24) % 256]

/-- Embedding of `write_tap_file` (the byte buffer it writes to disk), as a
function of the retained pulse list and `tape_play_speed`. -/
def write_tap_file (best_pulse_list : List RawPulse) (tape_play_speed : ℚ) :
    List ℕ :=
  tap_header best_pulse_list.length ++
    best_pulse_list.map (encode_pulse (tape_clock_period / tape_play_speed))

/-! ### Pulse categorisation (`_analyse_pulse_length_histogram` result shape
and the classification loop of `_categorise_pulse_list`) -/

/-- Pulse classes: `<`, `s`, `m`, `l`, `>`, `?` in the source. -/
inductive PT where
  | lt | s | m | l | gt | unk
  deriving Repr, DecidableEq

/-- The four break points returned by `_analyse_pulse_length_histogram`
(the `pulse_types` dictionary is determined by these, see `pulse_type_ranges`). -/
structure PulseTypes where
  s_min : ℚ
  m_min : ℚ
  l_min : ℚ
  l_max : ℚ
  deriving Repr, DecidableEq

/-- Default break points for C64/C128 (source lines 107-110):
0x10, 0x37, 0x4A, 0xF0. -/
def c64_defaults : PulseTypes := ⟨0x10, 0x37, 0x4A, 0xF0⟩

/-- Default break points for C16/Plus4 (source lines 113-116). -/
def c16_defaults : PulseTypes := ⟨0x10, 100, 180, 300⟩

/-- The `pulse_types` dictionary built at source lines 514-520, in insertion
order: each entry is (class, min, max). -/
def pulse_type_ranges (pt : PulseTypes) : List (PT × ℚ × ℚ) :=
  [(PT.lt, 0, pt.s_min),
   (PT.s, pt.s_min, pt.m_min),
   (PT.m, pt.m_min, pt.l_min),
   (PT.l, pt.l_min, pt.l_max),
   (PT.gt, pt.l_max, 10 ^ 9)]

/-- The classification loop of `_categorise_pulse_list` (source lines
388-392): scan the `pulse_types` entries in order and take the first with
`min <= pulse_cycles <= max`; default `?`. -/
def classify (ranges : List (PT × ℚ × ℚ)) (pulse_cycles : ℚ) : PT :=
  match ranges.find? (fun r => decide (r.2.1 ≤ pulse_cycles) &&
      decide (pulse_cycles ≤ r.2.2)) with
  | some r => r.1
  | none => PT.unk

/-! ### Pulse normalisation (`_normalise_pulse_list`, source lines 301-348) -/

/-- A pulse after `_normalise_pulse_list`: the raw fields plus the length in
clock cycles and the header-break flag. -/
structure NPulse where
  time : ℚ
  length_sec : ℚ
  length : ℚ
  header_break : Bool
  deriving Repr, DecidableEq

/-- The lengths of the next 500 pulses from `index` (source line 325:
`pulse_list[index : index + 500]`). -/
def header_window (pl : List RawPulse) (index : ℕ) : List ℚ :=
  ((pl.drop index).take 500).map (fun p => p.length_sec)

/-- Population mean, as `np.mean`. -/
def window_mean (w : List ℚ) : ℚ := w.sum / (w.length : ℚ)

/-- Population variance (`np.std` squared, ddof = 0). -/
def window_var (w : List ℚ) : ℚ :=
  (w.map (fun x => (x - window_mean w) ^ 2)).sum / (w.length : ℚ)

/-- The header-tone test of source line 329:
`header_std_dev_period < header_mean_period * 0.025`.  The standard deviation
is an (irrational) square root, so the comparison is embedded in squared form:
for a nonnegative deviation it is equivalent to `0 < mean` together with
`1600 * variance < mean ^ 2` (0.025 = 1/40). -/
def header_tone_test (pl : List RawPulse) (index : ℕ) : Bool :=
  let w := header_window pl index
  decide (0 < window_mean w) && decide (1600 * window_var w < window_mean w ^ 2)

/-- The body of the loop in `_normalise_pulse_list`, threading the pulse index
and `last_header_tone_time`. -/
def normalise_go (pl : List RawPulse) :
    ℕ → Option ℚ → List RawPulse → List NPulse
  | _, _, [] => []
  | index, last_header, item :: rest =>
    let qualifies : Bool := index % 100 == 0 && header_tone_test pl index
    let detected : Bool := qualifies &&
      (match last_header with
       | none => true
       | some t => decide (30 < item.time - t))
    let last' := if detected then some item.time else last_header
    ⟨item.time, item.length_sec, item.length_sec / tape_clock_period,
      detected⟩ :: normalise_go pl (index + 1) last' rest

/-- Embedding of `_normalise_pulse_list`. -/
def normalise_pulse_list (pl : List RawPulse) : List NPulse :=
  normalise_go pl 0 none pl

/-! ### Histogram threshold search (`_analyse_pulse_length_histogram`,
source lines 408-523) -/

/-- A maximal run of poorly-populated histogram bins (a `zero_strings` entry,
source lines 476-484). -/
structure Gap where
  hstart : ℕ
  hend : ℕ
  length : ℕ
  center : ℚ
  weight : ℚ
  sm_offset : ℚ
  ml_offset : ℚ
  deriving Repr, DecidableEq

/-- One step of the histogram-building loop of source lines 446-449:
`bin_number = int(length * histogram_bins_per_cycle)`, incremented when
`0 < bin_number < len(histogram)`. -/
def hist_step (h : List ℕ) (item : NPulse) : List ℕ :=
  let bin : ℤ := int_trunc (item.length * histogram_bins_per_cycle)
  if 0 < bin ∧ bin < (h.length : ℤ) then
    h.set bin.toNat (h.getD bin.toNat 0 + 1)
  else h

/-- The raw bin counts: 720 bins (`int(360 * histogram_bins_per_cycle)`),
filled by `hist_step` (source lines 445-449). -/
def histogram_counts (seg : List NPulse) : List ℕ :=
  seg.foldl hist_step (List.replicate 720 0)

/-- The histogram normalised to sum 1 (source line 452). -/
def normalised_histogram (seg : List NPulse) (sample_count : ℕ) : List ℚ :=
  (histogram_counts seg).map (fun (c : ℕ) => (c : ℚ) / (sample_count : ℚ))

/-- The inner scan of source lines 465-466: advance `h_index` while it is in
range and the bin is below the threshold; returns the first index at which
that fails. -/
def gap_scan_end (hist : List ℚ) (threshold : ℚ) : ℕ → ℕ → ℕ
  | 0, i => i
  | fuel + 1, i =>
    if i < hist.length ∧ hist.getD i 0 < threshold then
      gap_scan_end hist threshold fuel (i + 1)
    else i

/-- The `zero_strings` record appended at source lines 476-484 for the gap
running from bin `h_start` to bin `h_end`. -/
def mk_gap (sm_def ml_def : ℚ) (h_start h_end : ℕ) : Gap :=
  let center : ℚ := ((h_start : ℚ) + (h_end : ℚ)) / 2 / histogram_bins_per_cycle
  let weight : ℚ := ((h_end - h_start : ℕ) : ℚ)
  { hstart := h_start, hend := h_end, length := h_end - h_start,
    center := center, weight := weight,
    sm_offset := |center - sm_def| / (2 + weight),
    ml_offset := |center - ml_def| / (2 + weight) }

/-- The outer scan of source lines 460-487, collecting the `zero_strings`
list.  Each iteration advances the index by at least one, so a fuel of
`hist.length` (720) covers the whole loop. -/
def gap_scan (hist : List ℚ) (threshold sm_def ml_def : ℚ) :
    ℕ → ℕ → List Gap
  | 0, _ => []
  | fuel + 1, i =>
    if i < hist.length then
      if hist.getD i 0 < threshold then
        let e := gap_scan_end hist threshold hist.length i
        let rest := gap_scan hist threshold sm_def ml_def fuel (e + 1)
        if e < hist.length then mk_gap sm_def ml_def i e :: rest
        else rest
      else gap_scan hist threshold sm_def ml_def fuel (i + 1)
    else []

/-- The end of the segment that starts at `start_index`: advance while in
range and the pulse is not a header break (source lines 436-439). -/
def segment_end_index (pl : List NPulse) (start_index : ℕ) : ℕ :=
  start_index + 1 +
    ((pl.drop (start_index + 1)).takeWhile (fun p => !p.header_break)).length

/-- Source line 442: `sample_count = end_index - start_index`. -/
def segment_sample_count (pl : List NPulse) (start_index : ℕ) : ℕ :=
  segment_end_index pl start_index - start_index

/-- The `zero_strings` list computed for the segment starting at
`start_index` (bins below weight 0.004 scanned from `int(s_min)` upward). -/
def segment_gaps (d : PulseTypes) (pl : List NPulse) (start_index : ℕ) :
    List Gap :=
  let sample_count := segment_sample_count pl start_index
  let seg := (pl.drop start_index).take sample_count
  let hist := normalised_histogram seg sample_count
  gap_scan hist (4 / 1000) d.m_min d.l_min hist.length (int_trunc d.s_min).toNat

/-- Embedding of `_analyse_pulse_length_histogram`.  Returns `none` exactly
when the source raises `IndexError` at line 423
(`pulse_list[start_index]['time']` with `start_index` out of range, which
happens on an empty pulse list).  When the segment has more than 1000 pulses
and more than three gaps were found, the SM and ML break points are re-seated
by twice stably sorting the gap list (source lines 491-497); otherwise the
machine defaults are kept. -/
def analyse_pulse_length_histogram (d : PulseTypes) (pl : List NPulse)
    (start_index : ℕ) : Option PulseTypes :=
  match pl.get? start_index with
  | none => none
  | some _ =>
    if 1000 < segment_sample_count pl start_index then
      let zero_strings := segment_gaps d pl start_index
      if 3 < zero_strings.length then
        match List.insertionSort (fun a b => a.sm_offset ≤ b.sm_offset)
            zero_strings with
        | [] => some d
        | g :: rest =>
          match List.insertionSort (fun a b => a.ml_offset ≤ b.ml_offset)
              rest with
          | [] => some d
          | g' :: _ => some ⟨d.s_min, g.center, g'.center, d.l_max⟩
      else some d
    else some d

/-! ### Bit/byte framer (`_parse_pulse_list`, source lines 525-629) -/

/-- A pulse as seen by the framer: output of `_categorise_pulse_list` (the
fields of the pulse dictionary that the framer reads). -/
structure CPulse where
  time : ℚ
  length : ℚ
  type : PT
  sm_breakpoint : ℚ
  deriving Repr, DecidableEq

/-- A framed byte (source lines 609-615). -/
structure ByteRec where
  time : ℚ
  byte : ℕ
  check_bit_ok : Bool
  sm_breakpoint : ℚ
  sync_lost : Bool
  deriving Repr, DecidableEq

/-- The framer state threaded through the loop of `_parse_pulse_list`
(source lines 537-545). -/
structure FramerState where
  byte_start_time : ℚ
  bit_list : Option (List ℕ)
  seen_break : Bool
  sync_lost : Bool
  byte_list : List ByteRec
  deriving Repr, DecidableEq

/-- Initial framer state (source lines 537-546): `seen_break` starts true. -/
def framer_init : FramerState := ⟨0, none, true, false, []⟩

/-- True when the bit buffer exists and holds fewer than nine bits (the
guard of source line 581). -/
def collecting_lt9 : Option (List ℕ) → Bool
  | some bl => decide (bl.length < 9)
  | none => false

/-- Byte completion (source lines 603-618): when exactly nine bits are
buffered, emit a byte whose value is the little-endian sum of bits 0-7, with
an odd-parity check bit, and clear the buffer and the `sync_lost` flag. -/
def emit_byte (st : FramerState) (pulse_sm : ℚ) : FramerState :=
  match st.bit_list with
  | some bl =>
    if bl.length = 9 then
      let byte_value := ((List.range 8).map (fun i => bl.getD i 0 * 2 ^ i)).sum
      let expected_check_bit := ((List.range 8).map (fun i => bl.getD i 0)).sum % 2
      let check_bit := 1 - bl.getD 8 0
      { st with
        byte_list := st.byte_list ++
          [⟨st.byte_start_time, byte_value,
            decide (check_bit = expected_check_bit), pulse_sm, st.sync_lost⟩],
        sync_lost := false,
        bit_list := none }
    else st
  | none => st

/-- The outcome of one framer iteration: `invalid` advances one pulse
(source lines 590-599), `ok` advances two. -/
inductive StepOut where
  | invalid (st : FramerState)
  | ok (st : FramerState)
  deriving Repr, DecidableEq

/-- One iteration of the framer loop of `_parse_pulse_list` (source lines
549-626) on the pulse pair (p1, p2).  The branch order follows the source's
`elif` chain.  In the corrupted-pair branch (SS or MM with a bit buffer of
fewer than nine bits, source lines 581-589) the source appends bit 0 when the
first pulse is the shorter, and otherwise falls into the dead test
`elif pulse_pair == 'ms'` — which can never hold there, so no bit is
appended. -/
def framer_step (p1 p2 : CPulse) (st : FramerState) : StepOut :=
  let pair := (p1.type, p2.type)
  if pair = (PT.l, PT.m) ∨ pair = (PT.l, PT.l) then
    let st' := { st with byte_start_time := p1.time, bit_list := some [] }
    .ok { emit_byte st' p1.sm_breakpoint with seen_break := false }
  else if pair = (PT.m, PT.m) ∧ st.bit_list = none then
    let st' := { st with byte_start_time := p1.time, bit_list := some [] }
    .ok { emit_byte st' p1.sm_breakpoint with seen_break := false }
  else if pair = (PT.l, PT.s) then
    let st' := { st with bit_list := none }
    .ok { emit_byte st' p1.sm_breakpoint with seen_break := false }
  else if pair = (PT.s, PT.m) then
    let st' := { st with bit_list := st.bit_list.map (fun bl => bl ++ [0]) }
    .ok { emit_byte st' p1.sm_breakpoint with seen_break := false }
  else if pair = (PT.m, PT.s) then
    let st' := { st with bit_list := st.bit_list.map (fun bl => bl ++ [1]) }
    .ok { emit_byte st' p1.sm_breakpoint with seen_break := false }
  else if (pair = (PT.s, PT.s) ∨ pair = (PT.m, PT.m)) ∧
      collecting_lt9 st.bit_list = true then
    let st' :=
      if p1.length < p2.length then
        { st with bit_list := st.bit_list.map (fun bl => bl ++ [0]) }
      else if pair = (PT.m, PT.s) then
        { st with bit_list := st.bit_list.map (fun bl => bl ++ [1]) }
      else st
    .ok { emit_byte st' p1.sm_breakpoint with seen_break := false }
  else
    .invalid (if st.seen_break then { st with sync_lost := true }
      else { st with seen_break := true, bit_list := none, sync_lost := true })

/-- The framer loop with its position index, plus fuel; `none` means the fuel
ran out before the loop guard `position < len(pulse_list) - 1` failed.  The
termination theorem shows that fuel `pl.length` always suffices, because
every iteration advances the position by 1 (invalid pair) or 2. -/
def parse_pulse_aux (pl : List CPulse) :
    ℕ → ℕ → FramerState → Option (List ByteRec)
  | 0, pos, st => if pos + 1 < pl.length then none else some st.byte_list
  | fuel + 1, pos, st =>
    if h : pos + 1 < pl.length then
      match framer_step (pl.get ⟨pos, by omega⟩) (pl.get ⟨pos + 1, h⟩) st with
      | .invalid st' => parse_pulse_aux pl fuel (pos + 1) st'
      | .ok st' => parse_pulse_aux pl fuel (pos + 2) st'
    else some st.byte_list

/-- Embedding of `_parse_pulse_list`. -/
def parse_pulse_list (pl : List CPulse) : Option (List ByteRec) :=
  parse_pulse_aux pl pl.length 0 framer_init

/-! ### Block assembler (`_parse_byte_list`, source lines 631-747) -/

/-- A block candidate while bytes are accumulating: the fields of
`blank_chunk_descriptor` (source lines 652-661) that the loop mutates. -/
structure RawChunk where
  copy : ℕ
  bytes : List ℕ
  error_count : ℕ
  start_time : ℚ
  end_time : ℚ
  deriving Repr, DecidableEq

/-- The blank chunk descriptor. -/
def blank_chunk : RawChunk := ⟨0, [], 0, 0, 0⟩

/-- Assembler state: the chunks already pushed into the output list and then
closed, the current candidate, whether the current candidate is itself
already in the output list (the source's output list holds a reference to
the still-mutating dictionary), and the `synchronised` flag. -/
structure AsmState where
  out : List RawChunk
  cur : RawChunk
  cur_in_out : Bool
  synchronised : Bool
  deriving Repr, DecidableEq

/-- Initial assembler state. -/
def asm_init : AsmState := ⟨[], blank_chunk, false, false⟩

/-- Close the current candidate: its final value is recorded in the output
list exactly when the source's output list holds a reference to it. -/
def close_cur (st : AsmState) : List RawChunk :=
  if st.cur_in_out then st.out ++ [st.cur] else st.out

/-- One step of the assembly loop of `_parse_byte_list` (source lines
665-703): start a new candidate on `sync_lost` or a gap over 0.1 s, append
the byte, and while unsynchronised look for a KERNAL countdown in the last
four bytes (`bytes[-4:]`). -/
def asm_step (st0 : AsmState) (item : ByteRec) : AsmState :=
  let fresh : ℕ → ByteRec → Bool → Bool → List RawChunk → AsmState :=
    fun cpy it io sync outl =>
      ⟨outl, ⟨cpy, [], 0, it.time, it.time⟩, io, sync⟩
  let st1 :=
    if item.sync_lost = true ∨ st0.cur.end_time + 1 / 10 < item.time then
      fresh 0 item false false (close_cur st0)
    else st0
  let cur2 : RawChunk :=
    ⟨st1.cur.copy, st1.cur.bytes ++ [item.byte],
      st1.cur.error_count + (if item.check_bit_ok = true then 0 else 1),
      st1.cur.start_time, item.time⟩
  let st2 : AsmState := ⟨st1.out, cur2, st1.cur_in_out, st1.synchronised⟩
  if st2.synchronised then st2
  else
    let st3 :=
      if st2.cur.bytes.drop (st2.cur.bytes.length - 4) =
          [0x84, 0x83, 0x82, 0x81] then
        fresh 0 item true true (close_cur st2)
      else st2
    if st3.cur.bytes.drop (st3.cur.bytes.length - 4) =
        [0x04, 0x03, 0x02, 0x01] then
      fresh 1 item true true (close_cur st3)
    else st3

/-- The raw chunks produced by the assembly loop. -/
def assemble_chunks (byte_list : List ByteRec) : List RawChunk :=
  close_cur (byte_list.foldl asm_step asm_init)

/-- Block classification tags (source strings `----`, `SEQ_`, `HEAD`,
`DATA`). -/
inductive ChunkType where
  | uncls | seq | head | data
  deriving Repr, DecidableEq

/-- XOR fold used for the checksum (`reduce` at source line 716). -/
def xor_fold : List ℕ → ℕ
  | [] => 0
  | b :: rest => rest.foldl (fun i j => i ^^^ j) b

/-- A finalised block (the chunk dictionary after source lines 706-744,
without the content hash of line 730: Python's builtin `hash` is
implementation-defined and no verified claim depends on it). -/
structure Chunk where
  copy : ℕ
  bytes : List ℕ
  byte_count : ℕ
  byte_count_without_error : ℕ
  error_count : ℕ
  start_time : ℚ
  end_time : ℚ
  recorded_checksum : ℕ
  calculated_checksum : ℕ
  pass_qc : Bool
  length : ℕ
  type : ChunkType
  deriving Repr, DecidableEq

/-- Finalisation of one block (source lines 706-744): empty buffers get the
always-failing sentinel `[0, 0xff]`; the last byte is popped as the recorded
checksum; the calculated checksum is the XOR fold of the remaining bytes (0
if none); `pass_qc` requires no parity errors and matching checksums; blocks
of 192 bytes are classed SEQ (first byte 2) or HEAD, any other QC-passing
length DATA.  (`bytes0` is never empty, so `getLast?` always yields its last
element, and the `bytes[0]` access is guarded by `length = 0xc0 > 0`.) -/
def finalize_chunk (r : RawChunk) : Chunk :=
  let bytes0 := if r.bytes = [] then [0, 0xff] else r.bytes
  let recorded := bytes0.getLast?.getD 0
  let payload := bytes0.dropLast
  let calculated := if 0 < payload.length then xor_fold payload else 0
  let qc : Bool := decide (r.error_count = 0) && decide (recorded = calculated)
  let len := payload.length
  let ctype :=
    if qc = true then
      if len = 0xc0 then
        if payload.getD 0 0 = 2 then ChunkType.seq else ChunkType.head
      else ChunkType.data
    else ChunkType.uncls
  { copy := r.copy, bytes := payload, byte_count := len,
    byte_count_without_error := if qc = true then len else 0,
    error_count := r.error_count, start_time := r.start_time,
    end_time := r.end_time, recorded_checksum := recorded,
    calculated_checksum := calculated, pass_qc := qc,
    length := len, type := ctype }

/-- Embedding of `_parse_byte_list`. -/
def parse_byte_list (byte_list : List ByteRec) : List Chunk :=
  (assemble_chunks byte_list).map finalize_chunk

/-! ### Multi-pass reconciler (`search_wav_file`, source lines 133-240) -/

/-- A merged chunk: the chunk together with its provenance
(`config_ids`). -/
structure MChunk where
  chunk : Chunk
  config_ids : List ℕ
  deriving Repr, DecidableEq

/-- Source line 175: `timing_margin = 0.1`. -/
def timing_margin : ℚ := 1 / 10

/-- The match test of source lines 189-194: a candidate matches an existing
merged chunk unless one of the two `continue` guards fires. -/
def chunk_overlap (c : Chunk) (e : MChunk) : Bool :=
  !decide (c.end_time < e.chunk.start_time - timing_margin) &&
    !decide (c.start_time > e.chunk.end_time + timing_margin)

/-- The four actions of source lines 199-217. -/
inductive MergeAction where
  | keep | replace | append | replaceAppend
  deriving Repr, DecidableEq

/-- The action decision of source lines 199-217, in source order.  On Python
booleans `existing['pass_qc'] > chunk['pass_qc']` means `existing ∧ ¬chunk`,
and `chunk['byte_count_without_error'] >= existing[...]` is the third test. -/
def merge_action (c : Chunk) (e : MChunk) : MergeAction :=
  if e.chunk.pass_qc && !c.pass_qc then .keep
  else if c.pass_qc && !e.chunk.pass_qc then .replace
  else if e.chunk.byte_count_without_error ≤ c.byte_count_without_error then
    .replaceAppend
  else .append

/-- Merging one chunk `c` recovered by pass `config_id` into the merged list
(source lines 180-234): find the first time-overlapping entry (the loop
breaks at the first match) and act on it; with no match, append with a fresh
provenance. -/
def merge_one (config_id : ℕ) (c : Chunk) (merged : List MChunk) :
    List MChunk :=
  match merged.findIdx? (chunk_overlap c) with
  | none => merged ++ [⟨c, [config_id]⟩]
  | some i =>
    match merged.get? i with
    | none => merged
    | some e =>
      match merge_action c e with
      | .keep => merged
      | .replace => merged.set i ⟨c, [config_id]⟩
      | .append => merged.set i ⟨e.chunk, e.config_ids ++ [config_id]⟩
      | .replaceAppend => merged.set i ⟨c, e.config_ids ++ [config_id]⟩

/-- Ranking of the configurations by total error-free bytes, descending
(source lines 159-167); Python's `sorted(..., reverse=True)` is stable. -/
def rank_configs (chunks_by_config : List (List Chunk)) : List (ℕ × ℕ) :=
  List.insertionSort (fun a b => b.2 ≤ a.2)
    ((List.range chunks_by_config.length).map
      (fun cid => (cid, ((chunks_by_config.getD cid []).map
        (fun c => c.byte_count_without_error)).sum)))

/-- The merge phase of `search_wav_file` (source lines 174-240): insert every
chunk of every configuration in rank order, then sort the merged list by
start time (Python's stable `list.sort`). -/
def merge_chunk_lists (chunks_by_config : List (List Chunk)) : List MChunk :=
  List.insertionSort (fun a b => a.chunk.start_time ≤ b.chunk.start_time)
    ((rank_configs chunks_by_config).foldl
      (fun acc cfg => (chunks_by_config.getD cfg.1 []).foldl
        (fun acc2 c => merge_one cfg.1 c acc2) acc) [])

/-! ### The categorisation loop and the whole pipeline -/

/-- The loop of `_categorise_pulse_list` (source lines 376-399).  When a
pulse carries the `header_break` flag, the thresholds are re-derived from the
histogram of the segment starting there; every pulse is classified and
snapshots the current SM threshold (`pulse_types['s']['max']`). -/
def categorise_go (d : PulseTypes) (pl : List NPulse) :
    ℕ → PulseTypes → List NPulse → Option (List CPulse)
  | _, _, [] => some []
  | index, pt, item :: rest => do
    let pt' ← if item.header_break = true then
        analyse_pulse_length_histogram d pl index
      else some pt
    let r ← categorise_go d pl (index + 1) pt' rest
    some (⟨item.time, item.length,
      classify (pulse_type_ranges pt') item.length, pt'.m_min⟩ :: r)

/-- Embedding of `_categorise_pulse_list`: the initial histogram analysis at
index 0 runs before the loop (source line 366) and raises `IndexError` on an
empty pulse list (line 423), modelled as `none`. -/
def categorise_pulse_list (d : PulseTypes) (pl : List NPulse) :
    Option (List CPulse) := do
  let pt0 ← analyse_pulse_length_histogram d pl 0
  categorise_go d pl 0 pt0 pl

/-- One decoding pass (`search_for_files`, source lines 242-299), as a
function of the zero-crossing times: crossings to pulses to normalised
pulses to categorised pulses to bytes to finalised chunks.  The tape-speed
estimate of lines 282-286 is not needed by any claim and is omitted. -/
def search_for_files (d : PulseTypes) (crossings : List ℚ) :
    Option (List Chunk) := do
  let cpl ← categorise_pulse_list d
    (normalise_pulse_list (fetch_pulse_list crossings))
  let bytes ← parse_pulse_list cpl
  some (parse_byte_list bytes)

/-- The pass loop plus merge of `search_wav_file` (source lines 133-240), as
a function of the zero-crossing lists of all (channel, inversion)
configurations. -/
def search_wav_file (d : PulseTypes) (crossings_by_config : List (List ℚ)) :
    Option (List MChunk) := do
  let chunk_lists ← crossings_by_config.mapM (search_for_files d)
  some (merge_chunk_lists chunk_lists)

/-! ### Concrete pulse lists exercising the threshold search -/

/-- A segment of 1002 pulses whose lengths fall in histogram bins 17 and 19
(lengths 8.5 and 9.5 cycles): more than 1000 pulses, and exactly two gaps
(bins 16 and 18) below the top of the histogram. -/
def c5x_pulses : List NPulse :=
  List.replicate 501 ⟨0, 0, 17 / 2, false⟩ ++
    List.replicate 501 ⟨0, 0, 19 / 2, false⟩

/-- A segment of 1005 pulses spread over histogram bins 17, 19, 21, 23 and 25:
more than 1000 pulses and five gaps (bins 16, 18, 20, 22, 24). -/
def c5w_pulses : List NPulse :=
  List.replicate 201 ⟨0, 0, 17 / 2, false⟩ ++
    (List.replicate 201 ⟨0, 0, 19 / 2, false⟩ ++
      (List.replicate 201 ⟨0, 0, 21 / 2, false⟩ ++
        (List.replicate 201 ⟨0, 0, 23 / 2, false⟩ ++
          List.replicate 201 ⟨0, 0, 25 / 2, false⟩)))

/-! ### Concrete inputs for the framer, assembler and reconciler -/

/-- A byte stream carrying the countdown $84 $83 $82 $81 followed by a
one-byte payload and its checksum. -/
def c7_bytes : List ByteRec :=
  [⟨0, 0x84, true, 55, false⟩, ⟨0, 0x83, true, 55, false⟩,
   ⟨0, 0x82, true, 55, false⟩, ⟨0, 0x81, true, 55, false⟩,
   ⟨0, 5, true, 55, false⟩, ⟨0, 5, true, 55, false⟩]

/-- A byte stream whose countdown block receives no bytes: the byte after
the countdown arrives after a gap longer than 0.1 s, closing the freshly
opened block while its buffer is still empty. -/
def c7_bytes2 : List ByteRec :=
  [⟨0, 0x84, true, 55, false⟩, ⟨0, 0x83, true, 55, false⟩,
   ⟨0, 0x82, true, 55, false⟩, ⟨0, 0x81, true, 55, false⟩,
   ⟨1, 7, true, 55, false⟩]

/-- An existing merged chunk for the reconciliation step: passes QC with an
empty payload (zero error-free bytes), spanning 10 s to 11 s. -/
def c8_existing : MChunk := ⟨finalize_chunk ⟨0, [0], 0, 10, 11⟩, [0]⟩

/-- A candidate chunk overlapping `c8_existing`: passes QC with two
error-free payload bytes, spanning 10 s to 12 s. -/
def c8_candidate : Chunk := finalize_chunk ⟨0, [0, 0, 0], 0, 10, 12⟩

/-- Per-configuration chunk lists for the reconciler.  Configuration 0 holds
a QC-passing block on [10, 30] and a padding block at [1000, 1001] (total 14
error-free bytes); configuration 1 holds blocks on [5, 6] and [2000, 2001]
(total 8); configuration 2 holds a single block on [5, 20] (total 4).  The
last block first-matches the [10, 30] block and replaces it, leaving two
merged blocks that share start time 5. -/
def c9_configs : List (List Chunk) :=
  [[finalize_chunk ⟨0, List.replicate 5 0, 0, 10, 30⟩,
    finalize_chunk ⟨0, List.replicate 11 0, 0, 1000, 1001⟩],
   [finalize_chunk ⟨0, List.replicate 3 0, 0, 5, 6⟩,
    finalize_chunk ⟨0, List.replicate 7 0, 0, 2000, 2001⟩],
   [finalize_chunk ⟨0, List.replicate 5 0, 0, 5, 20⟩]]

/-! ### Theorems for claims C3, C6, C4 -/

/-- The five-pulse list of the C3/C6 scenario: lengths 40, 50, 60, 70, 80
clock cycles. -/
def c3_pulse_list : List RawPulse :=
  [⟨0, 40 * tape_clock_period⟩, ⟨1, 50 * tape_clock_period⟩,
   ⟨2, 60 * tape_clock_period⟩, ⟨3, 70 * tape_clock_period⟩,
   ⟨4, 80 * tape_clock_period⟩]

/-- C3: the claim asserts a 20-byte TAP header (three reserved bytes at
offsets 13-15, the pulse count at offset 16, pulse data from offset 20).  The
code instead appends four reserved bytes, so on the claim's own five-pulse
example the file is 26 bytes: the count byte 5 sits at offset 17 (offset 16
holds 0), and the pulse stream starts at offset 21.  This theorem evaluates
the embedded writer at that failing input. -/
theorem write_tap_file_reserved_bytes_off_by_one :
    (write_tap_file c3_pulse_list 1).length = 26 ∧
    (write_tap_file c3_pulse_list 1).take 13 =
      [67, 54, 52, 45, 84, 65, 80, 69, 45, 82, 65, 87, 0] ∧
    (write_tap_file c3_pulse_list 1).getD 13 99 = 0 ∧
    (write_tap_file c3_pulse_list 1).getD 14 99 = 0 ∧
    (write_tap_file c3_pulse_list 1).getD 15 99 = 0 ∧
    (write_tap_file c3_pulse_list 1).getD 16 99 = 0 ∧
    (write_tap_file c3_pulse_list 1).getD 17 99 = 5 ∧
    (write_tap_file c3_pulse_list 1).drop 21 = [40, 50, 60, 70, 80] := by
  with_unfolding_all decide

/-- C6 counterexample: a pulse whose encoded value is exactly 255 is written
as byte 0, not 255 — the code's guard is `0 < length_int < 255`, strict at
255, so the claim's range (0, 255] is wrong at its right endpoint. -/
theorem encode_pulse_255_not_representable :
    (255 * tape_clock_period) / (tape_clock_period / 1) = 255 ∧
    encode_pulse (tape_clock_period / 1) ⟨0, 255 * tape_clock_period⟩ = 0 ∧
    (0 : ℕ) ≠ 255 := by
  with_unfolding_all decide

theorem tap_header_length (l : ℕ) : (tap_header l).length = 21 := rfl

/-- C6 amended: every TAP body byte (the file content from offset 21 on)
equals `length_sec / (tape_clock_period / tape_play_speed)` truncated to an
integer whenever that value lies in the open interval (0, 255), and equals 0
for all other lengths (so 255 is not representable). -/
theorem tap_body_byte_encoding (pl : List RawPulse) (speed : ℚ) :
    (write_tap_file pl speed).drop 21 =
      pl.map (fun p =>
        if 0 < p.length_sec / (tape_clock_period / speed) ∧
            p.length_sec / (tape_clock_period / speed) < 255 then
          (int_trunc (p.length_sec / (tape_clock_period / speed))).toNat
        else 0) := by
  rw [write_tap_file, show (21 : ℕ) = (tap_header pl.length).length from rfl,
    List.drop_left]
  rfl

/-- C4 counterexample: with the default C64 break points, a pulse whose
length is exactly the SM threshold (0x37 = 55 cycles) is classed `s`, not
`m` as the claim states; and a pulse of exactly `s_min` (16 cycles) is
classed `<`, not `s` — the source's range checks are inclusive at both ends
and the first matching entry wins. -/
theorem classify_boundary_goes_to_earlier_class :
    classify (pulse_type_ranges c64_defaults) 55 = PT.s ∧ PT.s ≠ PT.m ∧
    classify (pulse_type_ranges c64_defaults) 16 = PT.lt ∧ PT.lt ≠ PT.s := by
  decide

/-- C4 amended: for ordered break points the class boundaries are inclusive
on the left class: `<` iff 0 ≤ x ≤ s_min; `s` iff s_min < x ≤ sm; `m` iff
sm < x ≤ ml; `l` iff ml < x ≤ l_max; `>` iff l_max < x ≤ 10^9; `?` for
lengths outside [0, 10^9]. -/
theorem classify_ranges (pt : PulseTypes) (x : ℚ)
    (h0 : 0 ≤ pt.s_min) (h1 : pt.s_min ≤ pt.m_min) (h2 : pt.m_min ≤ pt.l_min)
    (h3 : pt.l_min ≤ pt.l_max) (h4 : pt.l_max ≤ 10 ^ 9) :
    (0 ≤ x ∧ x ≤ pt.s_min → classify (pulse_type_ranges pt) x = PT.lt) ∧
    (pt.s_min < x ∧ x ≤ pt.m_min → classify (pulse_type_ranges pt) x = PT.s) ∧
    (pt.m_min < x ∧ x ≤ pt.l_min → classify (pulse_type_ranges pt) x = PT.m) ∧
    (pt.l_min < x ∧ x ≤ pt.l_max → classify (pulse_type_ranges pt) x = PT.l) ∧
    (pt.l_max < x ∧ x ≤ 10 ^ 9 → classify (pulse_type_ranges pt) x = PT.gt) ∧
    (x < 0 ∨ 10 ^ 9 < x → classify (pulse_type_ranges pt) x = PT.unk) := by
  refine ⟨fun h => ?_, fun h => ?_, fun h => ?_, fun h => ?_, fun h => ?_,
    fun h => ?_⟩
  · simp [classify, pulse_type_ranges, List.find?, h.1, h.2]
  · simp [classify, pulse_type_ranges, List.find?, le_of_lt h.1, h.2,
      not_le.mpr h.1]
  · have hs : ¬x ≤ pt.s_min := not_le.mpr (lt_of_le_of_lt h1 h.1)
    simp [classify, pulse_type_ranges, List.find?, le_of_lt h.1, h.2, hs,
      not_le.mpr h.1]
  · have hs : ¬x ≤ pt.s_min := not_le.mpr (lt_of_le_of_lt h1 (lt_of_le_of_lt h2 h.1))
    have hm : ¬x ≤ pt.m_min := not_le.mpr (lt_of_le_of_lt h2 h.1)
    simp [classify, pulse_type_ranges, List.find?, le_of_lt h.1, h.2, hs, hm,
      not_le.mpr h.1]
  · have hs : ¬x ≤ pt.s_min :=
      not_le.mpr (lt_of_le_of_lt h1 (lt_of_le_of_lt h2 (lt_of_le_of_lt h3 h.1)))
    have hm : ¬x ≤ pt.m_min := not_le.mpr (lt_of_le_of_lt h2 (lt_of_le_of_lt h3 h.1))
    have hl : ¬x ≤ pt.l_min := not_le.mpr (lt_of_le_of_lt h3 h.1)
    simp [classify, pulse_type_ranges, List.find?, le_of_lt h.1, h.2, hs, hm, hl,
      not_le.mpr h.1]
  · rcases h with h | h
    · have e1 : ¬(0 : ℚ) ≤ x := not_le.mpr h
      have e2 : ¬pt.s_min ≤ x := not_le.mpr (lt_of_lt_of_le h h0)
      have e3 : ¬pt.m_min ≤ x := not_le.mpr (lt_of_lt_of_le h (le_trans h0 h1))
      have e4 : ¬pt.l_min ≤ x :=
        not_le.mpr (lt_of_lt_of_le h (le_trans h0 (le_trans h1 h2)))
      have e5 : ¬pt.l_max ≤ x :=
        not_le.mpr (lt_of_lt_of_le h (le_trans h0 (le_trans h1 (le_trans h2 h3))))
      simp [classify, pulse_type_ranges, List.find?, e1, e2, e3, e4, e5]
    · have e1 : ¬x ≤ pt.s_min :=
        not_le.mpr (lt_of_le_of_lt (le_trans h1 (le_trans h2 (le_trans h3 h4))) h)
      have e2 : ¬x ≤ pt.m_min :=
        not_le.mpr (lt_of_le_of_lt (le_trans h2 (le_trans h3 h4)) h)
      have e3 : ¬x ≤ pt.l_min := not_le.mpr (lt_of_le_of_lt (le_trans h3 h4) h)
      have e4 : ¬x ≤ pt.l_max := not_le.mpr (lt_of_le_of_lt h4 h)
      have e5 : ¬x ≤ 10 ^ 9 := not_le.mpr h
      simp [classify, pulse_type_ranges, List.find?, e1, e2, e3, e4, e5]

/-- Witness for `classify_ranges` at the C64 defaults: 56 cycles (just above
the SM threshold 55) is classed `m`. -/
theorem classify_ranges_witness :
    ((0 : ℚ) ≤ 16 ∧ (16 : ℚ) ≤ 55 ∧ (55 : ℚ) ≤ 74 ∧ (74 : ℚ) ≤ 240 ∧
      (240 : ℚ) ≤ 10 ^ 9) ∧
    ((55 : ℚ) < 56 ∧ (56 : ℚ) ≤ 74) ∧
    classify (pulse_type_ranges c64_defaults) 56 = PT.m := by
  refine ⟨by decide, by decide, ?_⟩
  exact (classify_ranges c64_defaults 56 (by decide) (by decide) (by decide)
    (by decide) (by decide)).2.2.1 ⟨by decide, by decide⟩

/-! ### Helper lemmas about the histogram scan -/

theorem gse_stop (hist : List ℚ) (θ : ℚ) (fuel i : ℕ)
    (h : ¬(i < hist.length ∧ hist.getD i 0 < θ)) :
    gap_scan_end hist θ fuel i = i := by
  cases fuel with
  | zero => rfl
  | succ n => rw [gap_scan_end, if_neg h]

theorem gse_step (hist : List ℚ) (θ : ℚ) (fuel i : ℕ)
    (h : i < hist.length ∧ hist.getD i 0 < θ) :
    gap_scan_end hist θ (fuel + 1) i = gap_scan_end hist θ fuel (i + 1) := by
  rw [gap_scan_end, if_pos h]

theorem gse_run (hist : List ℚ) (θ : ℚ) (fuel : ℕ) :
    ∀ i : ℕ, hist.length ≤ i + fuel → i ≤ hist.length →
      (∀ j, i ≤ j → j < hist.length → hist.getD j 0 < θ) →
      gap_scan_end hist θ fuel i = hist.length := by
  induction fuel with
  | zero =>
    intro i hfuel hle _
    have h : i = hist.length := by omega
    rw [show gap_scan_end hist θ 0 i = i from rfl, h]
  | succ n ih =>
    intro i hfuel hle hempty
    by_cases hi : i < hist.length
    · rw [gse_step hist θ n i ⟨hi, hempty i (le_refl i) hi⟩]
      exact ih (i + 1) (by omega) (by omega) (fun j hj hj2 => hempty j (by omega) hj2)
    · have h : i = hist.length := by omega
      rw [gse_stop hist θ (n + 1) i (fun hc => hi hc.1), h]

theorem gs_nil (hist : List ℚ) (θ sm ml : ℚ) (fuel i : ℕ)
    (h : ¬ i < hist.length) :
    gap_scan hist θ sm ml fuel i = [] := by
  cases fuel with
  | zero => rfl
  | succ n => rw [gap_scan, if_neg h]

theorem gs_pop (hist : List ℚ) (θ sm ml : ℚ) (fuel i : ℕ)
    (hi : i < hist.length) (h : ¬ hist.getD i 0 < θ) :
    gap_scan hist θ sm ml (fuel + 1) i = gap_scan hist θ sm ml fuel (i + 1) := by
  rw [gap_scan, if_pos hi, if_neg h]

theorem gs_gap (hist : List ℚ) (θ sm ml : ℚ) (fuel i e : ℕ)
    (hi : i < hist.length) (h : hist.getD i 0 < θ)
    (he : gap_scan_end hist θ hist.length i = e) (hel : e < hist.length) :
    gap_scan hist θ sm ml (fuel + 1) i =
      mk_gap sm ml i e :: gap_scan hist θ sm ml fuel (e + 1) := by
  rw [gap_scan, if_pos hi, if_pos h]
  simp only [he, if_pos hel]

theorem gs_tail (hist : List ℚ) (θ sm ml : ℚ) (fuel i : ℕ)
    (hi : i < hist.length) (h : hist.getD i 0 < θ)
    (he : gap_scan_end hist θ hist.length i = hist.length) :
    gap_scan hist θ sm ml (fuel + 1) i =
      gap_scan hist θ sm ml fuel (hist.length + 1) := by
  rw [gap_scan, if_pos hi, if_pos h]
  simp only [he, if_neg (lt_irrefl hist.length)]

/-! ### Helper lemmas about the histogram contents -/

theorem length_foldl_hist_step :
    ∀ (seg : List NPulse) (h : List ℕ),
      (List.foldl hist_step h seg).length = h.length
  | [], _ => rfl
  | x :: xs, h => by
    rw [List.foldl_cons, length_foldl_hist_step xs]
    simp only [hist_step]
    split <;> simp

theorem length_histogram_counts (seg : List NPulse) :
    (histogram_counts seg).length = 720 := by
  rw [histogram_counts, length_foldl_hist_step, List.length_replicate]

theorem length_normalised_histogram (seg : List NPulse) (n : ℕ) :
    (normalised_histogram seg n).length = 720 := by
  rw [normalised_histogram, List.length_map, length_histogram_counts]

theorem normalised_getD (seg : List NPulse) (n j : ℕ) :
    (normalised_histogram seg n).getD j 0 =
      ((histogram_counts seg).getD j 0 : ℚ) / (n : ℚ) := by
  rw [normalised_histogram, List.getD_eq_getElem?_getD, List.getD_eq_getElem?_getD,
    List.getElem?_map]
  cases h : (histogram_counts seg)[j]? with
  | none => rw [Option.map_none', Option.getD_none, Option.getD_none,
      Nat.cast_zero, zero_div]
  | some c => rw [Option.map_some', Option.getD_some, Option.getD_some]

theorem getD_set_value (l : List ℕ) (i v : ℕ) (h : i < l.length) :
    (l.set i v).getD i 0 = v := by
  simp [List.getD_eq_getElem?_getD, List.getElem?_set_self h]

theorem getD_set_other (l : List ℕ) (i j v : ℕ) (h : i ≠ j) :
    (l.set i v).getD j 0 = l.getD j 0 := by
  simp [List.getD_eq_getElem?_getD, List.getElem?_set_ne h]

theorem getD_replicate_zero (n j : ℕ) :
    (List.replicate n (0 : ℕ)).getD j 0 = 0 := by
  simp only [List.getD_eq_getElem?_getD, List.getElem?_replicate]
  split <;> rfl

theorem set_getD_self : ∀ (l : List ℕ) (i : ℕ), l.set i (l.getD i 0) = l
  | [], _ => rfl
  | _ :: _, 0 => rfl
  | a :: l, i + 1 => by
    simp only [List.set, List.getD_cons_succ]
    rw [set_getD_self l i]

theorem hist_step_set (h : List ℕ) (item : NPulse) (b : ℕ)
    (hbin : int_trunc (item.length * histogram_bins_per_cycle) = (b : ℤ))
    (hb0 : 0 < b) (hbl : b < h.length) :
    hist_step h item = h.set b (h.getD b 0 + 1) := by
  simp only [hist_step, hbin]
  rw [if_pos ⟨by exact_mod_cast hb0, by exact_mod_cast hbl⟩]
  simp

theorem foldl_hist_replicate (item : NPulse) (b : ℕ)
    (hbin : int_trunc (item.length * histogram_bins_per_cycle) = (b : ℤ))
    (hb0 : 0 < b) :
    ∀ (n : ℕ) (h : List ℕ), b < h.length →
      List.foldl hist_step h (List.replicate n item) =
        h.set b (h.getD b 0 + n) := by
  intro n
  induction n with
  | zero => intro h _; simpa using (set_getD_self h b).symm
  | succ n ih =>
    intro h hb
    rw [List.replicate_succ, List.foldl_cons, hist_step_set h item b hbin hb0 hb,
      ih _ (by simpa using hb), List.set_set, getD_set_value _ _ _ hb]
    congr 1
    omega

/-! ### Stable sort takes the first minimum -/

theorem insertionSort_head_key_min {α : Type} [DecidableEq α] (key : α → ℚ)
    (l : List α) (g : α) (rest : List α)
    (h : List.insertionSort (fun a b => key a ≤ key b) l = g :: rest) :
    g ∈ l ∧ (∀ x ∈ l, key g ≤ key x) ∧ rest.Perm (l.erase g) := by
  have hperm : (g :: rest).Perm l := by
    rw [← h]; exact List.perm_insertionSort _ l
  have hg : g ∈ l := hperm.subset (List.mem_cons_self g rest)
  haveI : IsTotal α (fun a b => key a ≤ key b) :=
    ⟨fun a b => le_total (key a) (key b)⟩
  haveI : IsTrans α (fun a b => key a ≤ key b) :=
    ⟨fun _ _ _ hab hbc => le_trans hab hbc⟩
  have hsorted := List.sorted_insertionSort (fun a b => key a ≤ key b) l
  rw [h] at hsorted
  refine ⟨hg, ?_, ?_⟩
  · intro x hx
    rcases List.mem_cons.mp (hperm.symm.subset hx) with rfl | hx'
    · exact le_refl _
    · exact List.rel_of_sorted_cons hsorted x hx'
  · exact (hperm.trans (List.perm_cons_erase hg)).cons_inv

/-- C5 amended, part of the claim apparatus: whenever the segment starting at
a valid index has more than 1000 pulses and the histogram yields more than
three gaps, the SM break point becomes the center of a gap minimising
`sm_offset` and the ML break point the center of one of the remaining gaps
minimising `ml_offset`; in all other cases (including segments with 1, 2 or 3
gaps) the machine defaults are returned unchanged. -/
theorem analyse_threshold_selection (d : PulseTypes) (pl : List NPulse)
    (i : ℕ) (hi : i < pl.length) :
    (segment_sample_count pl i ≤ 1000 ∨ (segment_gaps d pl i).length ≤ 3 →
      analyse_pulse_length_histogram d pl i = some d) ∧
    (1000 < segment_sample_count pl i → 3 < (segment_gaps d pl i).length →
      ∃ g ∈ segment_gaps d pl i,
        (∀ x ∈ segment_gaps d pl i, g.sm_offset ≤ x.sm_offset) ∧
        ∃ g' ∈ (segment_gaps d pl i).erase g,
          (∀ x ∈ (segment_gaps d pl i).erase g, g'.ml_offset ≤ x.ml_offset) ∧
          analyse_pulse_length_histogram d pl i =
            some ⟨d.s_min, g.center, g'.center, d.l_max⟩) := by
  obtain ⟨a, hget⟩ : ∃ a, pl[i]? = some a := ⟨pl[i], List.getElem?_eq_getElem hi⟩
  constructor
  · rintro (h | h)
    · simp [analyse_pulse_length_histogram, hget, Nat.not_lt.mpr h]
    · by_cases hs : 1000 < segment_sample_count pl i
      · simp [analyse_pulse_length_histogram, hget, hs, Nat.not_lt.mpr h]
      · simp [analyse_pulse_length_histogram, hget, hs]
  · intro hs hg
    obtain ⟨g, rest, hsort⟩ : ∃ g rest,
        List.insertionSort (fun a b => a.sm_offset ≤ b.sm_offset)
          (segment_gaps d pl i) = g :: rest := by
      cases hsl : List.insertionSort (fun a b => a.sm_offset ≤ b.sm_offset)
          (segment_gaps d pl i) with
      | nil =>
        exfalso
        have hlen := (List.perm_insertionSort
          (fun a b => a.sm_offset ≤ b.sm_offset) (segment_gaps d pl i)).length_eq
        rw [hsl] at hlen
        simp at hlen
        omega
      | cons g rest => exact ⟨g, rest, rfl⟩
    obtain ⟨hgmem, hgmin, hrestperm⟩ :=
      insertionSort_head_key_min Gap.sm_offset _ g rest hsort
    obtain ⟨g', rest', hsort'⟩ : ∃ g' rest',
        List.insertionSort (fun a b => a.ml_offset ≤ b.ml_offset) rest =
          g' :: rest' := by
      cases hsl : List.insertionSort (fun a b => a.ml_offset ≤ b.ml_offset)
          rest with
      | nil =>
        exfalso
        have h1 := (List.perm_insertionSort
          (fun a b => a.ml_offset ≤ b.ml_offset) rest).length_eq
        have h2 := (List.perm_insertionSort
          (fun a b => a.sm_offset ≤ b.sm_offset) (segment_gaps d pl i)).length_eq
        rw [hsl] at h1
        rw [hsort] at h2
        simp at h1 h2
        omega
      | cons g' rest' => exact ⟨g', rest', rfl⟩
    obtain ⟨hg'mem, hg'min, _⟩ :=
      insertionSort_head_key_min Gap.ml_offset _ g' rest' hsort'
    refine ⟨g, hgmem, hgmin, g', hrestperm.subset hg'mem, ?_, ?_⟩
    · intro x hx
      exact hg'min x (hrestperm.mem_iff.mpr hx)
    · simp only [analyse_pulse_length_histogram, List.get?_eq_getElem?, hget,
        if_pos hs, if_pos hg, hsort, hsort']

/-! ### Evaluation of the threshold search on `c5x_pulses` -/

theorem c5x_sample : segment_sample_count c5x_pulses 0 = 1002 := by
  have hlen : c5x_pulses.length = 1002 := by
    rw [c5x_pulses]; simp only [List.length_append, List.length_replicate]
  have hall : ∀ x ∈ c5x_pulses.drop (0 + 1), (!x.header_break) = true := by
    intro x hx
    have hx' : x ∈ c5x_pulses := List.mem_of_mem_drop hx
    simp only [c5x_pulses, List.mem_append, List.mem_replicate] at hx'
    rcases hx' with ⟨-, rfl⟩ | ⟨-, rfl⟩ <;> rfl
  rw [segment_sample_count, segment_end_index,
    List.takeWhile_eq_self_iff.mpr hall, List.length_drop, hlen]

theorem c5x_take : c5x_pulses.take 1002 = c5x_pulses := by
  have h : c5x_pulses.length = 1002 := by
    rw [c5x_pulses]; simp only [List.length_append, List.length_replicate]
  rw [← h, List.take_length]

theorem c5x_counts :
    histogram_counts c5x_pulses =
      ((List.replicate 720 0).set 17 501).set 19 501 := by
  rw [histogram_counts, c5x_pulses, List.foldl_append]
  rw [foldl_hist_replicate ⟨0, 0, 17 / 2, false⟩ 17
    (by with_unfolding_all decide) (by norm_num) 501 (List.replicate 720 0)
    (by simp only [List.length_replicate]; omega)]
  rw [foldl_hist_replicate ⟨0, 0, 19 / 2, false⟩ 19
    (by with_unfolding_all decide) (by norm_num) 501 _ (by simp only [List.length_set, List.length_replicate]; omega)]
  rw [getD_set_other _ _ _ _ (by norm_num), getD_replicate_zero,
    getD_replicate_zero]

theorem c5x_hist_getD (j : ℕ) :
    (normalised_histogram c5x_pulses 1002).getD j 0 =
      if j = 17 ∨ j = 19 then (1 : ℚ) / 2 else 0 := by
  rw [normalised_getD, c5x_counts]
  by_cases h19 : j = 19
  · subst h19
    rw [getD_set_value _ _ _
      (by simp only [List.length_set, List.length_replicate]; omega)]
    norm_num
  · rw [getD_set_other _ _ _ _ (fun hc => h19 hc.symm)]
    by_cases h17 : j = 17
    · subst h17
      rw [getD_set_value _ _ _ (by simp only [List.length_set, List.length_replicate]; omega)]
      norm_num
    · rw [getD_set_other _ _ _ _ (fun hc => h17 hc.symm), getD_replicate_zero]
      simp [h17, h19]

theorem c5x_gaps :
    segment_gaps c64_defaults c5x_pulses 0 =
      [mk_gap 55 74 16 17, mk_gap 55 74 18 19] := by
  have hget := c5x_hist_getD
  simp only [segment_gaps, c5x_sample, List.drop_zero, c5x_take]
  rw [show c64_defaults.m_min = 55 from rfl, show c64_defaults.l_min = 74 from rfl,
    show (int_trunc c64_defaults.s_min).toNat = 16 from by with_unfolding_all decide]
  set H := normalised_histogram c5x_pulses 1002 with hH
  have hlen : H.length = 720 := length_normalised_histogram _ _
  rw [hlen]
  have e16 : gap_scan_end H (4 / 1000) H.length 16 = 17 := by
    rw [hlen, show (720 : ℕ) = 719 + 1 from rfl]
    rw [gse_step _ _ 719 16 ⟨by omega, by rw [hget]; norm_num⟩]
    exact gse_stop _ _ 719 17
      (by rintro ⟨_, hc⟩; rw [hget] at hc; norm_num at hc)
  have e18 : gap_scan_end H (4 / 1000) H.length 18 = 19 := by
    rw [hlen, show (720 : ℕ) = 719 + 1 from rfl]
    rw [gse_step _ _ 719 18 ⟨by omega, by rw [hget]; norm_num⟩]
    exact gse_stop _ _ 719 19
      (by rintro ⟨_, hc⟩; rw [hget] at hc; norm_num at hc)
  have e20 : gap_scan_end H (4 / 1000) H.length 20 = H.length :=
    gse_run _ _ _ 20 (by omega) (by omega)
      (fun j hj _ => by rw [hget, if_neg (by omega)]; norm_num)
  have s16 : gap_scan H (4 / 1000) 55 74 720 16 =
      mk_gap 55 74 16 17 :: gap_scan H (4 / 1000) 55 74 719 18 := by
    rw [show (720 : ℕ) = 719 + 1 from rfl]
    exact gs_gap _ _ _ _ 719 16 17 (by omega) (by rw [hget]; norm_num) e16
      (by omega)
  have s18 : gap_scan H (4 / 1000) 55 74 719 18 =
      mk_gap 55 74 18 19 :: gap_scan H (4 / 1000) 55 74 718 20 := by
    rw [show (719 : ℕ) = 718 + 1 from rfl]
    exact gs_gap _ _ _ _ 718 18 19 (by omega) (by rw [hget]; norm_num) e18
      (by omega)
  have s20 : gap_scan H (4 / 1000) 55 74 718 20 =
      gap_scan H (4 / 1000) 55 74 717 (H.length + 1) := by
    rw [show (718 : ℕ) = 717 + 1 from rfl]
    exact gs_tail _ _ _ _ 717 20 (by omega) (by rw [hget]; norm_num) e20
  have s21 : gap_scan H (4 / 1000) 55 74 717 (H.length + 1) = [] :=
    gs_nil _ _ _ _ _ _ (by omega)
  rw [s16, s18, s20, s21]

/-! ### Evaluation of the threshold search on `c5w_pulses` -/

theorem c5w_sample : segment_sample_count c5w_pulses 0 = 1005 := by
  have hlen : c5w_pulses.length = 1005 := by
    rw [c5w_pulses]; simp only [List.length_append, List.length_replicate]
  have hall : ∀ x ∈ c5w_pulses.drop (0 + 1), (!x.header_break) = true := by
    intro x hx
    have hx' : x ∈ c5w_pulses := List.mem_of_mem_drop hx
    simp only [c5w_pulses, List.mem_append, List.mem_replicate] at hx'
    rcases hx' with ⟨-, rfl⟩ | ⟨-, rfl⟩ | ⟨-, rfl⟩ | ⟨-, rfl⟩ | ⟨-, rfl⟩ <;> rfl
  rw [segment_sample_count, segment_end_index,
    List.takeWhile_eq_self_iff.mpr hall, List.length_drop, hlen]

theorem c5w_take : c5w_pulses.take 1005 = c5w_pulses := by
  have h : c5w_pulses.length = 1005 := by
    rw [c5w_pulses]; simp only [List.length_append, List.length_replicate]
  rw [← h, List.take_length]

theorem c5w_counts :
    histogram_counts c5w_pulses =
      (((((List.replicate 720 0).set 17 201).set 19 201).set 21 201).set
        23 201).set 25 201 := by
  rw [histogram_counts, c5w_pulses, List.foldl_append, List.foldl_append,
    List.foldl_append, List.foldl_append]
  rw [foldl_hist_replicate ⟨0, 0, 17 / 2, false⟩ 17
    (by with_unfolding_all decide) (by norm_num) 201 (List.replicate 720 0)
    (by simp only [List.length_replicate]; omega)]
  rw [foldl_hist_replicate ⟨0, 0, 19 / 2, false⟩ 19
    (by with_unfolding_all decide) (by norm_num) 201 _ (by simp only [List.length_set, List.length_replicate]; omega)]
  rw [foldl_hist_replicate ⟨0, 0, 21 / 2, false⟩ 21
    (by with_unfolding_all decide) (by norm_num) 201 _ (by simp only [List.length_set, List.length_replicate]; omega)]
  rw [foldl_hist_replicate ⟨0, 0, 23 / 2, false⟩ 23
    (by with_unfolding_all decide) (by norm_num) 201 _ (by simp only [List.length_set, List.length_replicate]; omega)]
  rw [foldl_hist_replicate ⟨0, 0, 25 / 2, false⟩ 25
    (by with_unfolding_all decide) (by norm_num) 201 _ (by simp only [List.length_set, List.length_replicate]; omega)]
  rw [getD_replicate_zero,
    getD_set_other _ _ _ _ (by norm_num), getD_replicate_zero,
    getD_set_other _ _ _ _ (by norm_num), getD_set_other _ _ _ _ (by norm_num),
    getD_replicate_zero,
    getD_set_other _ _ _ _ (by norm_num), getD_set_other _ _ _ _ (by norm_num),
    getD_set_other _ _ _ _ (by norm_num), getD_replicate_zero,
    getD_set_other _ _ _ _ (by norm_num), getD_set_other _ _ _ _ (by norm_num),
    getD_set_other _ _ _ _ (by norm_num), getD_set_other _ _ _ _ (by norm_num),
    getD_replicate_zero]

theorem c5w_hist_getD (j : ℕ) :
    (normalised_histogram c5w_pulses 1005).getD j 0 =
      if j = 17 ∨ j = 19 ∨ j = 21 ∨ j = 23 ∨ j = 25 then (1 : ℚ) / 5
      else 0 := by
  rw [normalised_getD, c5w_counts]
  by_cases h25 : j = 25
  · subst h25; rw [getD_set_value _ _ _ (by simp only [List.length_set, List.length_replicate]; omega)]; norm_num
  · rw [getD_set_other _ _ _ _ (fun hc => h25 hc.symm)]
    by_cases h23 : j = 23
    · subst h23; rw [getD_set_value _ _ _ (by simp only [List.length_set, List.length_replicate]; omega)]; norm_num
    · rw [getD_set_other _ _ _ _ (fun hc => h23 hc.symm)]
      by_cases h21 : j = 21
      · subst h21; rw [getD_set_value _ _ _ (by simp only [List.length_set, List.length_replicate]; omega)]; norm_num
      · rw [getD_set_other _ _ _ _ (fun hc => h21 hc.symm)]
        by_cases h19 : j = 19
        · subst h19; rw [getD_set_value _ _ _ (by simp only [List.length_set, List.length_replicate]; omega)]; norm_num
        · rw [getD_set_other _ _ _ _ (fun hc => h19 hc.symm)]
          by_cases h17 : j = 17
          · subst h17; rw [getD_set_value _ _ _ (by simp only [List.length_set, List.length_replicate]; omega)]; norm_num
          · rw [getD_set_other _ _ _ _ (fun hc => h17 hc.symm),
              getD_replicate_zero]
            simp [h17, h19, h21, h23, h25]

theorem c5w_gaps :
    segment_gaps c64_defaults c5w_pulses 0 =
      [mk_gap 55 74 16 17, mk_gap 55 74 18 19, mk_gap 55 74 20 21,
        mk_gap 55 74 22 23, mk_gap 55 74 24 25] := by
  have hget := c5w_hist_getD
  simp only [segment_gaps, c5w_sample, List.drop_zero, c5w_take]
  rw [show c64_defaults.m_min = 55 from rfl, show c64_defaults.l_min = 74 from rfl,
    show (int_trunc c64_defaults.s_min).toNat = 16 from by with_unfolding_all decide]
  set H := normalised_histogram c5w_pulses 1005 with hH
  have hlen : H.length = 720 := length_normalised_histogram _ _
  rw [hlen]
  have estep : ∀ i e : ℕ, i < 720 → i + 1 = e → H.getD i 0 < 4 / 1000 →
      ¬ H.getD e 0 < 4 / 1000 → gap_scan_end H (4 / 1000) H.length i = e := by
    intro i e hi720 hie hlow hhigh
    rw [hlen, show (720 : ℕ) = 719 + 1 from rfl]
    rw [gse_step _ _ 719 i ⟨by omega, hlow⟩, hie]
    exact gse_stop _ _ 719 e (by rintro ⟨_, hc⟩; exact hhigh hc)
  have e16 : gap_scan_end H (4 / 1000) H.length 16 = 17 :=
    estep 16 17 (by omega) rfl (by rw [hget]; norm_num)
      (by rw [hget]; norm_num)
  have e18 : gap_scan_end H (4 / 1000) H.length 18 = 19 :=
    estep 18 19 (by omega) rfl (by rw [hget]; norm_num) (by rw [hget]; norm_num)
  have e20 : gap_scan_end H (4 / 1000) H.length 20 = 21 :=
    estep 20 21 (by omega) rfl (by rw [hget]; norm_num) (by rw [hget]; norm_num)
  have e22 : gap_scan_end H (4 / 1000) H.length 22 = 23 :=
    estep 22 23 (by omega) rfl (by rw [hget]; norm_num) (by rw [hget]; norm_num)
  have e24 : gap_scan_end H (4 / 1000) H.length 24 = 25 :=
    estep 24 25 (by omega) rfl (by rw [hget]; norm_num) (by rw [hget]; norm_num)
  have e26 : gap_scan_end H (4 / 1000) H.length 26 = H.length :=
    gse_run _ _ _ 26 (by omega) (by omega)
      (fun j hj _ => by rw [hget, if_neg (by omega)]; norm_num)
  have s16 : gap_scan H (4 / 1000) 55 74 720 16 =
      mk_gap 55 74 16 17 :: gap_scan H (4 / 1000) 55 74 719 18 := by
    rw [show (720 : ℕ) = 719 + 1 from rfl]
    exact gs_gap _ _ _ _ 719 16 17 (by omega) (by rw [hget]; norm_num) e16
      (by omega)
  have s18 : gap_scan H (4 / 1000) 55 74 719 18 =
      mk_gap 55 74 18 19 :: gap_scan H (4 / 1000) 55 74 718 20 := by
    rw [show (719 : ℕ) = 718 + 1 from rfl]
    exact gs_gap _ _ _ _ 718 18 19 (by omega) (by rw [hget]; norm_num) e18
      (by omega)
  have s20 : gap_scan H (4 / 1000) 55 74 718 20 =
      mk_gap 55 74 20 21 :: gap_scan H (4 / 1000) 55 74 717 22 := by
    rw [show (718 : ℕ) = 717 + 1 from rfl]
    exact gs_gap _ _ _ _ 717 20 21 (by omega) (by rw [hget]; norm_num) e20
      (by omega)
  have s22 : gap_scan H (4 / 1000) 55 74 717 22 =
      mk_gap 55 74 22 23 :: gap_scan H (4 / 1000) 55 74 716 24 := by
    rw [show (717 : ℕ) = 716 + 1 from rfl]
    exact gs_gap _ _ _ _ 716 22 23 (by omega) (by rw [hget]; norm_num) e22
      (by omega)
  have s24 : gap_scan H (4 / 1000) 55 74 716 24 =
      mk_gap 55 74 24 25 :: gap_scan H (4 / 1000) 55 74 715 26 := by
    rw [show (716 : ℕ) = 715 + 1 from rfl]
    exact gs_gap _ _ _ _ 715 24 25 (by omega) (by rw [hget]; norm_num) e24
      (by omega)
  have s26 : gap_scan H (4 / 1000) 55 74 715 26 =
      gap_scan H (4 / 1000) 55 74 714 (H.length + 1) := by
    rw [show (715 : ℕ) = 714 + 1 from rfl]
    exact gs_tail _ _ _ _ 714 26 (by omega) (by rw [hget]; norm_num) e26
  have s27 : gap_scan H (4 / 1000) 55 74 714 (H.length + 1) = [] :=
    gs_nil _ _ _ _ _ _ (by omega)
  rw [s16, s18, s20, s22, s24, s26, s27]

/-- C5 counterexample: the segment `c5x_pulses` has 1002 pulses (more than
1000) and its histogram has two gaps, yet the code keeps the machine defaults:
the gate at source line 491 requires strictly more than three gaps, not "at
least one gap" as the claim states, and the returned SM threshold (55) is not
the center of either gap. -/
theorem analyse_defaults_despite_gaps :
    1000 < segment_sample_count c5x_pulses 0 ∧
    segment_gaps c64_defaults c5x_pulses 0 =
      [mk_gap 55 74 16 17, mk_gap 55 74 18 19] ∧
    analyse_pulse_length_histogram c64_defaults c5x_pulses 0 =
      some c64_defaults ∧
    (mk_gap 55 74 16 17).center ≠ c64_defaults.m_min ∧
    (mk_gap 55 74 18 19).center ≠ c64_defaults.m_min := by
  refine ⟨by rw [c5x_sample]; norm_num, c5x_gaps, ?_, ?_, ?_⟩
  · have hget : c5x_pulses.get? 0 = some ⟨0, 0, 17 / 2, false⟩ := by
      rw [c5x_pulses, show (501 : ℕ) = 500 + 1 from rfl, List.replicate_succ]
      rfl
    simp only [analyse_pulse_length_histogram, hget, c5x_sample, c5x_gaps]
    norm_num
  · simp only [mk_gap, histogram_bins_per_cycle]
    norm_num [show c64_defaults.m_min = 55 from rfl]
  · simp only [mk_gap, histogram_bins_per_cycle]
    norm_num [show c64_defaults.m_min = 55 from rfl]

/-- Witness for `analyse_threshold_selection`: the segment `c5w_pulses` has
1005 pulses and five gaps, so the interesting branch of the theorem fires. -/
theorem analyse_threshold_selection_witness :
    0 < c5w_pulses.length ∧
    1000 < segment_sample_count c5w_pulses 0 ∧
    3 < (segment_gaps c64_defaults c5w_pulses 0).length ∧
    (∃ g ∈ segment_gaps c64_defaults c5w_pulses 0,
      (∀ x ∈ segment_gaps c64_defaults c5w_pulses 0,
        g.sm_offset ≤ x.sm_offset) ∧
      ∃ g' ∈ (segment_gaps c64_defaults c5w_pulses 0).erase g,
        (∀ x ∈ (segment_gaps c64_defaults c5w_pulses 0).erase g,
          g'.ml_offset ≤ x.ml_offset) ∧
        analyse_pulse_length_histogram c64_defaults c5w_pulses 0 =
          some ⟨c64_defaults.s_min, g.center, g'.center, c64_defaults.l_max⟩) := by
  have h1 : 0 < c5w_pulses.length := by
    rw [c5w_pulses]; simp only [List.length_append, List.length_replicate]; omega
  have h2 : 1000 < segment_sample_count c5w_pulses 0 := by
    rw [c5w_sample]; norm_num
  have h3 : 3 < (segment_gaps c64_defaults c5w_pulses 0).length := by
    rw [c5w_gaps]; norm_num
  exact ⟨h1, h2, h3,
    (analyse_threshold_selection c64_defaults c5w_pulses 0 h1).2 h2 h3⟩

/-! ### Framer termination and the corrupted-pair branch -/

theorem parse_pulse_aux_isSome (pl : List CPulse) :
    ∀ (fuel pos : ℕ) (st : FramerState), pl.length ≤ pos + 1 + fuel →
      (parse_pulse_aux pl fuel pos st).isSome = true := by
  intro fuel
  induction fuel with
  | zero =>
    intro pos st h
    rw [parse_pulse_aux, if_neg (by omega)]
    rfl
  | succ n ih =>
    intro pos st h
    rw [parse_pulse_aux]
    by_cases h1 : pos + 1 < pl.length
    · rw [dif_pos h1]
      split
      · exact ih _ _ (by omega)
      · exact ih _ _ (by omega)
    · rw [dif_neg h1]
      rfl

/-- C10: the framer terminates on every finite categorised pulse list.  Each
iteration advances the position by 1 (invalid pair) or 2 (otherwise), so with
fuel equal to the list length the loop guard `position < len - 1` always
fails in time and a byte list is returned (the result is never `none`). -/
theorem parse_pulse_list_total (pl : List CPulse) :
    (parse_pulse_list pl).isSome = true :=
  parse_pulse_aux_isSome pl pl.length 0 framer_init (by omega)

/-- C2: evaluation of the framer at the claim's failing input.  In the
Collecting state with three bits buffered, a corrupted pair `ss` whose first
pulse is the longer one (lengths 60 then 40 cycles) appends NO bit — the
recovery branch `elif pulse_pair == 'ms'` of source line 586 can never hold
inside the SS/MM arm — whereas the claim says bit 1 is appended (which would
give the buffer [1, 0, 0, 1]).  The shorter-first half of the claim does
hold: lengths 40 then 60 append bit 0. -/
theorem framer_corrupt_pair_drops_bit :
    framer_step ⟨0, 60, PT.s, 55⟩ ⟨1, 40, PT.s, 55⟩
        ⟨0, some [1, 0, 0], false, false, []⟩ =
      .ok ⟨0, some [1, 0, 0], false, false, []⟩ ∧
    framer_step ⟨0, 40, PT.s, 55⟩ ⟨1, 60, PT.s, 55⟩
        ⟨0, some [1, 0, 0], false, false, []⟩ =
      .ok ⟨0, some [1, 0, 0, 0], false, false, []⟩ ∧
    some [1, 0, 0] ≠ some [1, 0, 0, 1] := by
  with_unfolding_all decide

/-! ### Block QC invariant -/

theorem finalize_qc (r : RawChunk) (h : (finalize_chunk r).pass_qc = true) :
    xor_fold (finalize_chunk r).bytes = (finalize_chunk r).recorded_checksum ∧
    (finalize_chunk r).error_count = 0 := by
  simp only [finalize_chunk] at h ⊢
  rw [Bool.and_eq_true, decide_eq_true_eq, decide_eq_true_eq] at h
  refine ⟨?_, h.1⟩
  rw [h.2]
  set b0 := if r.bytes = [] then [0, 255] else r.bytes with hb0
  by_cases hp : 0 < b0.dropLast.length
  · rw [if_pos hp]
  · rw [if_neg hp]
    have h0 : b0.dropLast = [] := List.length_eq_zero.mp (by omega)
    rw [h0]
    rfl

theorem finalize_empty (r : RawChunk) (h : r.bytes = []) :
    (finalize_chunk r).pass_qc = false := by
  simp [finalize_chunk, h, xor_fold]

/-- C7: every block produced by the block assembler satisfies: `pass_qc`
implies that the XOR fold of the payload equals the recorded checksum and the
parity-error count is zero; and a block whose byte buffer was empty at
finalisation (replaced by the `[0, 0xff]` sentinel) always fails QC. -/
theorem block_qc_invariant (bl : List ByteRec) :
    (∀ c ∈ parse_byte_list bl, c.pass_qc = true →
      xor_fold c.bytes = c.recorded_checksum ∧ c.error_count = 0) ∧
    (∀ r ∈ assemble_chunks bl, r.bytes = [] →
      (finalize_chunk r).pass_qc = false) := by
  refine ⟨?_, ?_⟩
  · intro c hc hqc
    rw [parse_byte_list] at hc
    obtain ⟨r, _, rfl⟩ := List.mem_map.mp hc
    exact finalize_qc r hqc
  · intro r _ hr
    exact finalize_empty r hr

/-- Witness for `block_qc_invariant`: the byte stream `c7_bytes` yields one
QC-passing block, and `c7_bytes2` yields a block whose buffer was empty at
finalisation. -/
theorem block_qc_invariant_witness :
    (finalize_chunk ⟨0, [5, 5], 0, 0, 0⟩ ∈ parse_byte_list c7_bytes ∧
      (finalize_chunk ⟨0, [5, 5], 0, 0, 0⟩).pass_qc = true ∧
      xor_fold (finalize_chunk ⟨0, [5, 5], 0, 0, 0⟩).bytes =
        (finalize_chunk ⟨0, [5, 5], 0, 0, 0⟩).recorded_checksum ∧
      (finalize_chunk ⟨0, [5, 5], 0, 0, 0⟩).error_count = 0) ∧
    ((⟨0, [], 0, 0, 0⟩ : RawChunk) ∈ assemble_chunks c7_bytes2 ∧
      (⟨0, [], 0, 0, 0⟩ : RawChunk).bytes = [] ∧
      (finalize_chunk ⟨0, [], 0, 0, 0⟩).pass_qc = false) := by
  have h1 : finalize_chunk ⟨0, [5, 5], 0, 0, 0⟩ ∈ parse_byte_list c7_bytes := by
    with_unfolding_all decide
  have hq : (finalize_chunk ⟨0, [5, 5], 0, 0, 0⟩).pass_qc = true := by
    with_unfolding_all decide
  have h2 := (block_qc_invariant c7_bytes).1 _ h1 hq
  have h3 : (⟨0, [], 0, 0, 0⟩ : RawChunk) ∈ assemble_chunks c7_bytes2 := by
    with_unfolding_all decide
  have h4 := (block_qc_invariant c7_bytes2).2 _ h3 rfl
  exact ⟨⟨h1, hq, h2.1, h2.2⟩, ⟨h3, rfl, h4⟩⟩

/-! ### Reconciliation action -/

/-- C8: when a candidate chunk `c` from a ranked pass time-overlaps (within
the 0.1 s margin) the first-matching merged entry `e`, the reconciler does
exactly: keep `e` unchanged if `e` passes QC and `c` does not; replace `e`
by `c` with provenance `[config_id]` if `c` passes QC and `e` does not;
otherwise replace `e` by `c` with provenance `e.config_ids ++ [config_id]`
when `c` has at least as many error-free bytes, and keep `e` while appending
`config_id` to its provenance when it has fewer. -/
theorem merge_overlap_action (config_id : ℕ) (c : Chunk)
    (merged : List MChunk) (i : ℕ) (e : MChunk)
    (hfind : merged.findIdx? (chunk_overlap c) = some i)
    (hget : merged.get? i = some e) :
    merge_one config_id c merged =
      if e.chunk.pass_qc = true ∧ c.pass_qc = false then merged
      else if c.pass_qc = true ∧ e.chunk.pass_qc = false then
        merged.set i ⟨c, [config_id]⟩
      else if e.chunk.byte_count_without_error ≤
          c.byte_count_without_error then
        merged.set i ⟨c, e.config_ids ++ [config_id]⟩
      else merged.set i ⟨e.chunk, e.config_ids ++ [config_id]⟩ := by
  simp only [merge_one, hfind, hget, merge_action]
  cases hq1 : e.chunk.pass_qc <;> cases hq2 : c.pass_qc <;>
    by_cases hb : e.chunk.byte_count_without_error ≤
      c.byte_count_without_error <;>
    simp [hq1, hq2, hb]

/-- Witness for `merge_overlap_action`: a candidate overlapping a singleton
merged list (both QC-passing, the candidate with more error-free bytes). -/
theorem merge_overlap_action_witness :
    ([c8_existing].findIdx? (chunk_overlap c8_candidate) = some 0) ∧
    ([c8_existing].get? 0 = some c8_existing) ∧
    merge_one 3 c8_candidate [c8_existing] =
      (if c8_existing.chunk.pass_qc = true ∧ c8_candidate.pass_qc = false
       then [c8_existing]
       else if c8_candidate.pass_qc = true ∧
           c8_existing.chunk.pass_qc = false then
         [c8_existing].set 0 ⟨c8_candidate, [3]⟩
       else if c8_existing.chunk.byte_count_without_error ≤
           c8_candidate.byte_count_without_error then
         [c8_existing].set 0 ⟨c8_candidate, c8_existing.config_ids ++ [3]⟩
       else [c8_existing].set 0
         ⟨c8_existing.chunk, c8_existing.config_ids ++ [3]⟩) := by
  refine ⟨?_, ?_, ?_⟩
  · with_unfolding_all decide
  · with_unfolding_all decide
  · exact merge_overlap_action 3 c8_candidate [c8_existing] 0 c8_existing
      (by with_unfolding_all decide) (by with_unfolding_all decide)

/-! ### Sortedness of the merged list -/

/-- C9 counterexample: with the per-configuration chunk lists `c9_configs`
the merged list starts with two adjacent blocks sharing start time 5 — a
QC-equal replacement moved a block over an earlier-inserted block with the
same start time — so the final list is NOT strictly sorted by start time. -/
theorem merged_list_start_time_tie :
    (merge_chunk_lists c9_configs).map (fun m => m.chunk.start_time) =
      [5, 5, 1000, 2000] ∧
    ¬ List.Chain' (fun a b : MChunk => a.chunk.start_time < b.chunk.start_time)
      (merge_chunk_lists c9_configs) := by
  have hmap : (merge_chunk_lists c9_configs).map (fun m => m.chunk.start_time) =
      [5, 5, 1000, 2000] := by with_unfolding_all decide
  refine ⟨hmap, fun hch => ?_⟩
  have h2 : List.Chain' (fun a b : ℚ => a < b)
      ((merge_chunk_lists c9_configs).map (fun m => m.chunk.start_time)) :=
    (List.chain'_map _).mpr hch
  rw [hmap] at h2
  exact absurd (List.chain'_cons.mp h2).1 (lt_irrefl 5)

/-- C9 amended: the merged list returned by the reconciler is sorted by
start_time in non-strict (non-decreasing) order; adjacent merged blocks can
share a start time. -/
theorem merged_list_sorted (chunks_by_config : List (List Chunk)) :
    List.Sorted (fun a b : MChunk => a.chunk.start_time ≤ b.chunk.start_time)
      (merge_chunk_lists chunks_by_config) := by
  haveI : IsTotal MChunk
      (fun a b => a.chunk.start_time ≤ b.chunk.start_time) :=
    ⟨fun a b => le_total _ _⟩
  haveI : IsTrans MChunk
      (fun a b => a.chunk.start_time ≤ b.chunk.start_time) :=
    ⟨fun _ _ _ hab hbc => le_trans hab hbc⟩
  rw [merge_chunk_lists]
  exact List.sorted_insertionSort _ _

/-! ### The silent tape -/

/-- C1: on a completely silent tape — zero zero-crossings in every
(channel, inversion) pass — the pipeline does not return an empty merged
list: the initial histogram analysis of `_categorise_pulse_list` evaluates
`pulse_list[start_index]` on the empty pulse list (source line 423), which
raises `IndexError` in Python and aborts `search_wav_file`; the embedding
returns `none` at exactly that access. -/
theorem silent_tape_pipeline_aborts :
    analyse_pulse_length_histogram c64_defaults [] 0 = none ∧
    categorise_pulse_list c64_defaults [] = none ∧
    search_for_files c64_defaults [] = none ∧
    search_wav_file c64_defaults [[], [], [], []] = none := by
  with_unfolding_all decide

end CTape
